import Mathlib

/-!
Verification of the cutl URL-shortener link-lifecycle engine.

Shallow embedding of the Rust sources:
  server/src/utils.rs       (validate_url, validate_code, parse_ttl, generate_code)
  server/src/handlers.rs    (shorten, redirect, generate_unique_code, analytics)
  server/src/database.rs    (links/visits tables and their CRUD operations)
  server/src/middleware.rs  (create_rate_limiter)
  server/src/main.rs        (cleanup_task)
  cli/src/validation.rs     (CLI-side validate_code)

Strings are modelled as lists of Unicode scalar values (`List Char`).
Where Rust measures byte lengths of UTF-8 strings (`str::len`) the model
uses `byteLen`, the sum of the UTF-8 encoded sizes of the characters.
Rust's `char::to_lowercase`/`Char.toLower` agree on ASCII, which is the
scope of every theorem below that depends on lowercasing.
-/

deriving instance DecidableEq for Except

namespace Cutl

/-- Strings as lists of Unicode scalar values. -/
abbrev Str := List Char

/-- Number of bytes of the UTF-8 encoding of a character.  Models the
contribution of one `char` to Rust's `str::len`. -/
def utf8Len (c : Char) : Nat :=
  if c.toNat ≤ 0x7F then 1
  else if c.toNat ≤ 0x7FF then 2
  else if c.toNat ≤ 0xFFFF then 3
  else 4

/-- Byte length of the UTF-8 encoding of a string; models Rust `str::len`. -/
def byteLen (s : Str) : Nat := (s.map utf8Len).sum

/-- Model of Rust `char::is_whitespace`: the Unicode `White_Space` property
(25 code points, listed exhaustively). -/
def rustIsWhitespace (c : Char) : Bool :=
  let v := c.toNat
  decide (v = 0x09) || decide (v = 0x0A) || decide (v = 0x0B) || decide (v = 0x0C) ||
  decide (v = 0x0D) || decide (v = 0x20) || decide (v = 0x85) || decide (v = 0xA0) ||
  decide (v = 0x1680) || (decide (0x2000 ≤ v) && decide (v ≤ 0x200A)) ||
  decide (v = 0x2028) || decide (v = 0x2029) || decide (v = 0x202F) ||
  decide (v = 0x205F) || decide (v = 0x3000)

/-- Model of Rust `str::trim`: strip leading and trailing whitespace. -/
def trimStr (s : Str) : Str :=
  ((s.dropWhile rustIsWhitespace).reverse.dropWhile rustIsWhitespace).reverse

/-- Model of Rust `str::to_lowercase`.  `Char.toLower` lowercases exactly the
ASCII uppercase letters; this agrees with Rust on all ASCII input, the scope
of the lowercasing-dependent theorems below. -/
def toLowerStr (s : Str) : Str := s.map Char.toLower

/-- Model of Rust `str::starts_with` for a literal pattern. -/
def startsWithStr (pat s : Str) : Bool := pat.isPrefixOf s

/-- Model of Rust `str::contains` for a literal pattern: substring search. -/
def containsSub (pat s : Str) : Bool := s.tails.any (fun t => pat.isPrefixOf t)

/-- Embedding of `validate_url` (server/src/utils.rs, lines 51-66).
Fails unless the string starts with `http://` or `https://`; then rejects
when the lowercased URL contains `localhost` or `127.0.0.1` anywhere. -/
def validate_url (url : Str) : Bool :=
  if !(startsWithStr ("http://".data) url) && !(startsWithStr ("https://".data) url) then
    false
  else
    let url_lower := toLowerStr url
    if containsSub ("localhost".data) url_lower || containsSub ("127.0.0.1".data) url_lower then
      false
    else
      true

/-- One character of the class `[a-zA-Z0-9_-]` of the server's code regex. -/
def isCodeChar (c : Char) : Bool :=
  c.isAlpha || c.isDigit || decide (c = '_') || decide (c = '-')

/-- Embedding of the match of `CODE_REGEX` (`[a-zA-Z0-9_-]` repeated 1 to 32
times, anchored at both ends) against a string:
1 to 32 characters, all from the class. -/
def code_regex_match (code : Str) : Bool :=
  decide (1 ≤ code.length) && decide (code.length ≤ 32) && code.all isCodeChar

/-- Embedding of the server's `validate_code` (server/src/utils.rs,
lines 74-91): empty fails, byte length above 32 fails, then the regex. -/
def validate_code (code : Str) : Bool :=
  if code.isEmpty then false
  else if byteLen code > 32 then false
  else if !code_regex_match code then false
  else true

/-- Model of Rust `char::is_alphanumeric` (Unicode `Alphabetic` or a
`Number` category character).  The model is exact for code points up to
U+00FF (ASCII plus the Latin-1 Supplement, whose alphanumerics are listed
exhaustively from the Unicode data); higher code points are mapped to
`false`, which is inexact there — every theorem below that involves this
function quantifies only over code points at most U+00FF. -/
def rustIsAlphanumeric (c : Char) : Bool :=
  let v := c.toNat
  if v < 0x80 then c.isAlpha || c.isDigit
  else if v ≤ 0xFF then
    decide (v = 0xAA) || decide (v = 0xB2) || decide (v = 0xB3) || decide (v = 0xB5) ||
    decide (v = 0xB9) || decide (v = 0xBA) || decide (v = 0xBC) || decide (v = 0xBD) ||
    decide (v = 0xBE) ||
    (decide (0xC0 ≤ v) && decide (v ≤ 0xD6)) ||
    (decide (0xD8 ≤ v) && decide (v ≤ 0xF6)) ||
    (decide (0xF8 ≤ v) && decide (v ≤ 0xFF))
  else false

namespace Cli

/-- Embedding of the CLI's `validate_code` (cli/src/validation.rs,
lines 35-53): empty fails, byte length above 32 fails, then every character
must satisfy Rust `char::is_alphanumeric` or be a hyphen or underscore. -/
def validate_code (code : Str) : Bool :=
  if code.isEmpty then false
  else if byteLen code > 32 then false
  else if !(code.all (fun c => rustIsAlphanumeric c || decide (c = '-') || decide (c = '_'))) then
    false
  else true

end Cli

/-- Value of a nonempty all-ASCII-digit string, most significant digit
first. -/
def digitsToNat (s : Str) : Nat :=
  s.foldl (fun acc c => acc * 10 + (c.toNat - 0x30)) 0

/-- Parses a nonempty run of ASCII digits; `none` on an empty string or any
non-digit character. -/
def parseDigits (s : Str) : Option Nat :=
  if s.isEmpty then none
  else if s.all Char.isDigit then some (digitsToNat s)
  else none

/-- Largest `i64` value. -/
def i64Max : Int := 2 ^ 63 - 1

/-- Model of Rust `str::parse` at type `i64`: an optional sign, then at
least one ASCII digit, and the value must fit in an `i64`. -/
def parseI64 (s : Str) : Option Int :=
  match s with
  | '+' :: rest => (parseDigits rest).bind (fun n => if (n : Int) ≤ i64Max then some (n : Int) else none)
  | '-' :: rest => (parseDigits rest).bind (fun n => if (n : Int) ≤ 2 ^ 63 then some (-(n : Int)) else none)
  | _ => (parseDigits s).bind (fun n => if (n : Int) ≤ i64Max then some (n : Int) else none)

/-- `MIN_TTL_SECONDS` (server/src/utils.rs): 5 minutes. -/
def MIN_TTL_SECONDS : Int := 300

/-- `MAX_TTL_SECONDS` (server/src/utils.rs): 30 days. -/
def MAX_TTL_SECONDS : Int := 30 * 24 * 60 * 60

/-- Seconds-per-unit factor of the TTL unit character, after lowercasing. -/
def unitFactor (u : Char) : Option Int :=
  if u = 's' then some 1
  else if u = 'm' then some 60
  else if u = 'h' then some (60 * 60)
  else if u = 'd' then some (24 * 60 * 60)
  else none

/-- Reduction of an unbounded integer into the `i64` value it denotes in
two's complement: the representative of its class modulo `2 ^ 64` in
`[-2 ^ 63, 2 ^ 63)`. -/
def wrapI64 (n : Int) : Int :=
  let m := n % (2 ^ 64 : Int)
  if m < 2 ^ 63 then m else m - 2 ^ 64

/-- `i64` multiplication with release-build overflow semantics: the product
wraps around modulo `2 ^ 64` (checked builds panic instead; the claims here
follow the deployed, unchecked arithmetic). -/
def wrapMulI64 (a b : Int) : Int := wrapI64 (a * b)

/-- Outcome of `parse_ttl`: a seconds value, a returned error, or a panic
of the surrounding thread (`split_at` on a byte index that is not a
character boundary). -/
inductive TtlOutcome where
  | ok (seconds : Int)
  | err
  | panic
deriving DecidableEq

/-- Embedding of `parse_ttl` (server/src/utils.rs, lines 105-145): trim,
lowercase, reject fewer than 2 bytes, then `split_at(len - 1)` on the BYTE
length — which panics when the final character is multibyte, since byte
`len - 1` then falls inside it — parse the prefix as an `i64`, scale by
the unit factor in wrapping `i64` arithmetic, and range-check the wrapped
result against `[MIN_TTL_SECONDS, MAX_TTL_SECONDS]`.  The final `match`
arm is unreachable: at least 2 bytes mean a nonempty string, whose last
character `List.drop` isolates. -/
def parse_ttl (s : Str) : TtlOutcome :=
  let t := toLowerStr (trimStr s)
  if byteLen t < 2 then .err
  else
    match t.drop (t.length - 1) with
    | [u] =>
      if 2 ≤ utf8Len u then .panic
      else
        match parseI64 (t.take (t.length - 1)) with
        | none => .err
        | some num =>
          match unitFactor u with
          | some f =>
            let seconds := wrapMulI64 num f
            if seconds < MIN_TTL_SECONDS then .err
            else if seconds > MAX_TTL_SECONDS then .err
            else .ok seconds
          | none => .err
    | _ => .err

/-- Membership in `BASE62_CHARS` (server/src/utils.rs, line 16): the ASCII
digits, uppercase letters and lowercase letters. -/
def isBase62 (c : Char) : Bool :=
  let v := c.toNat
  (decide (0x30 ≤ v) && decide (v ≤ 0x39)) ||
  (decide (0x41 ≤ v) && decide (v ≤ 0x5A)) ||
  (decide (0x61 ≤ v) && decide (v ≤ 0x7A))

/-- Contract of `generate_code` (server/src/utils.rs, lines 34-44): a string
of 6 to 8 characters drawn from `BASE62_CHARS`.  The generator is random;
theorems take the produced candidates as an oracle satisfying this shape. -/
def GeneratedCodeShape (c : Str) : Prop :=
  6 ≤ c.length ∧ c.length ≤ 8 ∧ c.all isBase62 = true

/-- A row of the `links` table (server/src/models.rs / database.rs):
`code` is the primary key. -/
structure Link where
  code : Str
  original_url : Str
  expires_at : Int
  created_at : Int
deriving DecidableEq

/-- The `links` table, in insertion order. -/
abbrev LinksTable := List Link

/-- A row of the `visits` table (ignoring the store-owned autoincrement id). -/
structure Visit where
  code : Str
  visited_at : Int
  ip : Option Str
  country : Option Str
  city : Option Str
  user_agent : Option Str
  referer : Option Str
deriving DecidableEq

/-- The `visits` table, in insertion order. -/
abbrev VisitsTable := List Visit

/-- The database state: the two tables. -/
structure Db where
  links : LinksTable
  visits : VisitsTable
deriving DecidableEq

/-- Embedding of `code_exists` (database.rs, lines 87-94):
`SELECT COUNT(*) FROM links WHERE code = ?` compared against zero. -/
def code_exists (links : LinksTable) (c : Str) : Bool :=
  links.any (fun l => l.code == c)

/-- Embedding of `get_link` (database.rs, lines 120-136): the row whose
primary key equals `c`, if any. -/
def get_link (links : LinksTable) (c : Str) : Option Link :=
  links.find? (fun l => l.code == c)

/-- Embedding of `insert_link` (database.rs, lines 97-115): appends a row
(callers only insert codes that passed the existence check). -/
def insert_link (links : LinksTable) (code url : Str) (expires_at created_at : Int) :
    LinksTable :=
  links ++ [Link.mk code url expires_at created_at]

/-- Embedding of `delete_link` (database.rs, lines 139-146):
`DELETE FROM links WHERE code = ?`; returns the remaining rows and whether
any row was removed. -/
def delete_link (links : LinksTable) (c : Str) : LinksTable × Bool :=
  let rest := links.filter (fun l => !(l.code == c))
  (rest, decide (rest.length < links.length))

/-- Embedding of `delete_expired_links` (database.rs, lines 151-158):
`DELETE FROM links WHERE expires_at < ?`; returns the remaining rows and
the number of rows deleted. -/
def delete_expired_links (links : LinksTable) (now : Int) : LinksTable × Nat :=
  let keep := links.filter (fun l => !(decide (l.expires_at < now)))
  (keep, links.length - keep.length)

/-- Embedding of `insert_visit` (database.rs, lines 162-186). -/
def insert_visit (visits : VisitsTable) (v : Visit) : VisitsTable :=
  visits ++ [v]

/-- The visits recorded against one code. -/
def visits_for (visits : VisitsTable) (c : Str) : VisitsTable :=
  visits.filter (fun v => v.code == c)

/-- Embedding of `count_visits` (database.rs, lines 189-196). -/
def count_visits (visits : VisitsTable) (c : Str) : Nat :=
  (visits_for visits c).length

/-- One `(group value, count)` aggregation row. -/
structure CountStat where
  value : Option Str
  count : Nat
deriving DecidableEq

/-- Distinct values of `f` over the rows, in first-appearance order
(the deterministic model of the SQL `GROUP BY` key set). -/
def groupKeys (f : Visit → Option Str) (vs : VisitsTable) : List (Option Str) :=
  vs.foldl (fun acc v => if acc.contains (f v) then acc else acc ++ [f v]) []

/-- Counts per distinct value of `f`. -/
def groupCountsBy (f : Visit → Option Str) (vs : VisitsTable) : List CountStat :=
  (groupKeys f vs).map (fun k => CountStat.mk k (vs.filter (fun v => f v == k)).length)

/-- Stable descending insertion by count. -/
def insertByCountDesc (x : CountStat) : List CountStat → List CountStat
  | [] => [x]
  | y :: ys => if y.count < x.count then x :: y :: ys else y :: insertByCountDesc x ys

/-- Stable insertion sort, descending by count — a deterministic model of
the SQL `ORDER BY count DESC` (whose tie order SQLite leaves open). -/
def sortByCountDesc : List CountStat → List CountStat
  | [] => []
  | x :: xs => insertByCountDesc x (sortByCountDesc xs)

/-- Embedding of `visits_by_country` (database.rs, lines 199-211). -/
def visits_by_country (visits : VisitsTable) (c : Str) : List CountStat :=
  sortByCountDesc (groupCountsBy (fun v => v.country) (visits_for visits c))

/-- Embedding of `visits_by_referer` (database.rs, lines 214-226). -/
def visits_by_referer (visits : VisitsTable) (c : Str) : List CountStat :=
  sortByCountDesc (groupCountsBy (fun v => v.referer) (visits_for visits c))

/-- Calendar day of a Unix timestamp, abstracted as the epoch-day number
(the SQL formats it as a `YYYY-MM-DD` string; the grouping is the same). -/
def epochDay (t : Int) : Int := t / 86400

/-- Distinct epoch days of the rows, in first-appearance order. -/
def dayKeys (vs : VisitsTable) : List Int :=
  vs.foldl
    (fun acc v => if acc.contains (epochDay v.visited_at) then acc else acc ++ [epochDay v.visited_at])
    []

/-- Stable descending insertion by epoch day. -/
def insertByDayDesc (x : Int × Nat) : List (Int × Nat) → List (Int × Nat)
  | [] => [x]
  | y :: ys => if y.1 < x.1 then x :: y :: ys else y :: insertByDayDesc x ys

/-- Stable insertion sort, descending by epoch day. -/
def sortByDayDesc : List (Int × Nat) → List (Int × Nat)
  | [] => []
  | x :: xs => insertByDayDesc x (sortByDayDesc xs)

/-- Embedding of `visits_daily` (database.rs, lines 229-244): per-day counts
over the trailing 30 days, newest day first. -/
def visits_daily (visits : VisitsTable) (c : Str) (now : Int) : List (Int × Nat) :=
  let recent := (visits_for visits c).filter (fun v => decide (now - 30 * 86400 ≤ v.visited_at))
  sortByDayDesc
    ((dayKeys recent).map
      (fun d => (d, (recent.filter (fun v => epochDay v.visited_at == d)).length)))

/-- Stable descending insertion by visit time. -/
def insertByTimeDesc (x : Visit) : List Visit → List Visit
  | [] => [x]
  | y :: ys => if y.visited_at < x.visited_at then x :: y :: ys else y :: insertByTimeDesc x ys

/-- Stable insertion sort, descending by visit time — a deterministic model
of `ORDER BY visited_at DESC`. -/
def sortByTimeDesc : List Visit → List Visit
  | [] => []
  | x :: xs => insertByTimeDesc x (sortByTimeDesc xs)

/-- Embedding of `recent_visits` (database.rs, lines 247-268): the 20 most
recent visits of the code, newest first. -/
def recent_visits (visits : VisitsTable) (c : Str) : List Visit :=
  (sortByTimeDesc (visits_for visits c)).take 20

/-- The error taxonomy of `ApiError` (server/src/models.rs). -/
inductive ApiErrorKind where
  | badRequest
  | unauthorized
  | conflict
  | notFound
  | rateLimited
  | internal
deriving DecidableEq

/-- Body of `ShortenRequest` (server/src/models.rs). -/
structure CreateRequest where
  url : Str
  code : Option Str
  ttl : Option Str

/-- Body of `ShortenResponse` (server/src/models.rs). -/
structure ShortenResponse where
  code : Str
  short_url : Str
  expires_at : Int
deriving DecidableEq

/-- Model of `base_url.trim_end_matches` at the slash character: drops every
trailing slash. -/
def trim_end_slashes (s : Str) : Str :=
  (s.reverse.dropWhile (fun c => c == '/')).reverse

/-- Default TTL when the request carries none (handlers.rs, line 77):
7 days. -/
def DEFAULT_TTL_SECONDS : Int := 7 * 24 * 60 * 60

/-- `MAX_ATTEMPTS` of `generate_unique_code` (handlers.rs, line 198). -/
def MAX_ATTEMPTS : Nat := 10

/-- The bounded retry loop of `generate_unique_code` (handlers.rs,
lines 200-211): `fuel` attempts remain, `i` candidates were consumed; each
iteration draws the next candidate from the oracle `gen` and returns it
unless it already exists. -/
def generate_unique_code_loop (links : LinksTable) (gen : Nat → Str) :
    Nat → Nat → Except ApiErrorKind Str
  | 0, _ => .error .internal
  | fuel + 1, i =>
    let code := gen i
    if code_exists links code then generate_unique_code_loop links gen fuel (i + 1)
    else .ok code

/-- Embedding of `generate_unique_code` (handlers.rs, lines 197-216): up to
`MAX_ATTEMPTS` drawn candidates; exhaustion is an internal error. -/
def generate_unique_code (links : LinksTable) (gen : Nat → Str) : Except ApiErrorKind Str :=
  generate_unique_code_loop links gen MAX_ATTEMPTS 0

/-- Result of a creation call: a response, a returned API error, or a
panic of the handler task (propagated from `parse_ttl`, which the handler
calls without any catch). -/
inductive HandlerResult (α : Type) where
  | ok (a : α)
  | err (e : ApiErrorKind)
  | panic
deriving DecidableEq

/-- Embedding of the creation handlers `shorten` / `shorten_noauth`
(handlers.rs, lines 50-121 and 246-305; the two share this logic, the
former prefixed by the bearer-token check whose outcome is `auth_ok`).
`gen` is the oracle of random codes, `now` the value of `now_unix()`.
Returns the response, error or panic, and the database after the call. -/
def shorten (db : Db) (auth_ok : Bool) (base_url : Str) (req : CreateRequest)
    (gen : Nat → Str) (now : Int) : HandlerResult ShortenResponse × Db :=
  if !auth_ok then (.err .unauthorized, db)
  else if !validate_url req.url then (.err .badRequest, db)
  else
    let ttl? : HandlerResult Int :=
      match req.ttl with
      | some t =>
        match parse_ttl t with
        | .ok v => .ok v
        | .err => .err .badRequest
        | .panic => .panic
      | none => .ok DEFAULT_TTL_SECONDS
    match ttl? with
    | .err e => (.err e, db)
    | .panic => (.panic, db)
    | .ok ttl_seconds =>
      let code? : Except ApiErrorKind Str :=
        match req.code with
        | some custom =>
          if !validate_code custom then .error .badRequest
          else if code_exists db.links custom then .error .conflict
          else .ok custom
        | none => generate_unique_code db.links gen
      match code? with
      | .error e => (.err e, db)
      | .ok code =>
        let expires_at := now + ttl_seconds
        let short_url := trim_end_slashes base_url ++ '/' :: code
        (.ok (ShortenResponse.mk code short_url expires_at),
         Db.mk (insert_link db.links code req.url expires_at now) db.visits)

/-- The request-derived visit attributes of the redirect handler (client IP,
resolved geo, user agent, referer). -/
structure VisitInfo where
  ip : Option Str
  country : Option Str
  city : Option Str
  user_agent : Option Str
  referer : Option Str

/-- Embedding of the redirect handler (handlers.rs, lines 132-192).
`visit_write_ok` is the outcome of the best-effort `insert_visit` write
(`.ok()` in the source swallows its error).  Returns the redirect target or
error, and the database after the call. -/
def redirect (db : Db) (code : Str) (now : Int) (vinfo : VisitInfo)
    (visit_write_ok : Bool) : Except ApiErrorKind Str × Db :=
  if code.isEmpty || decide (byteLen code > 32) then (.error .notFound, db)
  else
    match get_link db.links code with
    | none => (.error .notFound, db)
    | some link =>
      if decide (now > link.expires_at) then
        (.error .notFound, Db.mk (delete_link db.links code).1 db.visits)
      else
        let db' :=
          if visit_write_ok then
            Db.mk db.links
              (insert_visit db.visits
                (Visit.mk code now vinfo.ip vinfo.country vinfo.city vinfo.user_agent
                  vinfo.referer))
          else db
        (.ok link.original_url, db')

/-- Body of `AnalyticsResponse` (server/src/models.rs). -/
structure AnalyticsResponse where
  code : Str
  original_url : Str
  created_at : Int
  expires_at : Int
  total_visits : Nat
  countries : List CountStat
  referers : List CountStat
  daily : List (Int × Nat)
  recent : List Visit
deriving DecidableEq

/-- Embedding of the analytics handler (handlers.rs, lines 312-382):
bearer-token check (outcome `auth_ok`), link lookup, strict expiry check,
then the four read-only aggregations. -/
def analytics (db : Db) (auth_ok : Bool) (code : Str) (now : Int) :
    Except ApiErrorKind AnalyticsResponse :=
  if !auth_ok then .error .unauthorized
  else
    match get_link db.links code with
    | none => .error .notFound
    | some link =>
      if decide (now > link.expires_at) then .error .notFound
      else
        .ok
          (AnalyticsResponse.mk link.code link.original_url link.created_at link.expires_at
            (count_visits db.visits code)
            (visits_by_country db.visits code)
            (visits_by_referer db.visits code)
            (visits_daily db.visits code now)
            (recent_visits db.visits code))

/-- One tick of `cleanup_task` (server/src/main.rs, lines 123-142): invoke
the bulk delete of expired links at the current time. -/
def cleanup_tick (db : Db) (now : Int) : Db × Nat :=
  let r := delete_expired_links db.links now
  (Db.mk r.1 db.visits, r.2)

/-- The two parameters the governor middleware receives from
`create_rate_limiter`. -/
structure GovernorConfig where
  seconds_per_request : Nat
  burst_size : Nat
deriving DecidableEq

/-- Embedding of `create_rate_limiter` (server/src/middleware.rs,
lines 24-42): the per-token replenish interval is `60 / rate_limit` in
`u64` (truncating) division, the bucket capacity is `burst_size`, and the
builder's `finish()` returns no configuration when the period or the burst
is zero, which `.unwrap()` turns into a startup panic.  `none` models that
panic (it also covers `rate_limit = 0`, where the division itself panics:
Lean's `60 / 0 = 0` then falls under the zero-period case). -/
def create_rate_limiter (rate_limit burst_size : Nat) : Option GovernorConfig :=
  let seconds_per_request := 60 / rate_limit
  if seconds_per_request = 0 ∨ burst_size = 0 then none
  else some (GovernorConfig.mk seconds_per_request burst_size)

/-- The substring relation, as a proposition: `pat` occurs contiguously
somewhere in `s`.  This is what Rust `str::contains` with a literal pattern
decides. -/
def ContainsSubstring (pat s : Str) : Prop := ∃ l r, s = l ++ pat ++ r

/-- Everything after the first `://` of the string; the whole string is
consumed if no separator occurs. -/
def afterSchemeSep : Str → Str
  | [] => []
  | ':' :: '/' :: '/' :: rest => rest
  | _ :: rest => afterSchemeSep rest

/-- Modelled from the spec: the host of an absolute http(s) URL — the
authority component (after `://`, before the first `/`, `?` or `#`),
with any userinfo (up to the last `@`) and any `:port` stripped.  The
server source never computes a host (it substring-matches the whole URL);
this definition renders the spec's phrase "after parsing, the host". -/
def hostOf (url : Str) : Str :=
  let auth := (afterSchemeSep url).takeWhile
    (fun c => !(decide (c = '/') || decide (c = '?') || decide (c = '#')))
  let afterUser :=
    if auth.contains '@' then (auth.reverse.takeWhile (fun c => !(decide (c = '@')))).reverse
    else auth
  afterUser.takeWhile (fun c => !(decide (c = ':')))

/-- The spec's host-based locality test: the parsed host equals `localhost`
or begins with `127.0.0.1`, case-insensitively. -/
def spec_host_is_local (url : Str) : Bool :=
  let h := toLowerStr (hostOf url)
  h == ("localhost".data) || startsWithStr ("127.0.0.1".data) h

/-- The condition under which Resolve and Summarize report `NotFound`:
no stored Link has the code, or the Link is strictly expired. -/
def absentOrExpired (links : LinksTable) (c : Str) (now : Int) : Bool :=
  match get_link links c with
  | none => true
  | some l => decide (now > l.expires_at)

/-- Invariant of every store reachable through the creation handlers: each
stored code is nonempty and at most 32 bytes (custom codes pass
`validate_code`, generated ones are 6-8 ASCII characters). -/
def StoredCodesWf (links : LinksTable) : Prop :=
  ∀ l ∈ links, l.code ≠ [] ∧ byteLen l.code ≤ 32

end Cutl

namespace Cutl

lemma utf8Len_pos (c : Char) : 1 ≤ utf8Len c := by
  unfold utf8Len
  split
  · omega
  · split
    · omega
    · split <;> omega

lemma length_le_byteLen (s : Str) : s.length ≤ byteLen s := by
  induction s with
  | nil => simp [byteLen]
  | cons a t ih =>
    have h1 : byteLen (a :: t) = utf8Len a + byteLen t := by simp [byteLen]
    have h2 := utf8Len_pos a
    simp only [List.length_cons]
    omega

end Cutl

namespace Cutl

end Cutl

namespace Cutl

lemma containsSub_iff (pat s : Str) :
    containsSub pat s = true ↔ ContainsSubstring pat s := by
  unfold containsSub ContainsSubstring
  rw [List.any_eq_true]
  constructor
  · rintro ⟨t, hmem, hpre⟩
    rw [List.mem_tails] at hmem
    rw [List.isPrefixOf_iff_prefix] at hpre
    obtain ⟨r, rfl⟩ := hpre
    obtain ⟨l, rfl⟩ := hmem
    exact ⟨l, r, by simp⟩
  · rintro ⟨l, r, rfl⟩
    refine ⟨pat ++ r, ?_, ?_⟩
    · rw [List.mem_tails]
      exact ⟨l, by simp⟩
    · rw [List.isPrefixOf_iff_prefix]
      exact ⟨r, rfl⟩

lemma validate_url_iff (url : Str) :
    validate_url url = true ↔
      ((startsWithStr ("http://".data) url = true ∨ startsWithStr ("https://".data) url = true) ∧
       ¬ContainsSubstring ("localhost".data) (toLowerStr url) ∧
       ¬ContainsSubstring ("127.0.0.1".data) (toLowerStr url)) := by
  unfold validate_url
  simp only [← containsSub_iff]
  by_cases h1 : startsWithStr ("http://".data) url <;>
    by_cases h2 : startsWithStr ("https://".data) url <;>
      by_cases h3 : containsSub ("localhost".data) (toLowerStr url) <;>
        by_cases h4 : containsSub ("127.0.0.1".data) (toLowerStr url) <;>
          simp [h1, h2, h3, h4]

end Cutl

namespace Cutl

/-- C3 counterexample: `https://example.com/localhost` starts with
`https://` and its host is `example.com` — neither `localhost` nor a
`127.0.0.1` prefix — yet `validate_url` rejects it, because the code
substring-matches the whole URL instead of inspecting the host. -/
theorem C3_counterexample :
    validate_url ("https://example.com/localhost".data) = false ∧
    startsWithStr ("https://".data) ("https://example.com/localhost".data) = true ∧
    hostOf ("https://example.com/localhost".data) = "example.com".data ∧
    spec_host_is_local ("https://example.com/localhost".data) = false := by
  refine ⟨by decide, by decide, by decide, by decide⟩

/-- C3 (amended): `validate_url` fails unless the string begins with
`http://` or `https://`; given that prefix, it fails if and only if the
lowercased URL contains `localhost` or `127.0.0.1` as a substring anywhere
(not merely as the host); it still rejects `ftp://x`, `https://localhost`
and `https://127.0.0.1` and accepts `https://example.com`. -/
theorem C3_validate_url_amended :
    (∀ url : Str,
      validate_url url = true ↔
        ((startsWithStr ("http://".data) url = true ∨
          startsWithStr ("https://".data) url = true) ∧
         ¬ContainsSubstring ("localhost".data) (toLowerStr url) ∧
         ¬ContainsSubstring ("127.0.0.1".data) (toLowerStr url))) ∧
    validate_url ("ftp://x".data) = false ∧
    validate_url ("https://localhost".data) = false ∧
    validate_url ("https://127.0.0.1".data) = false ∧
    validate_url ("https://example.com".data) = true :=
  ⟨validate_url_iff, by decide, by decide, by decide, by decide⟩

end Cutl


namespace Cutl

/-- C7 counterexample: at `rate_limit = 7` the configured interval is
`60 / 7 = 8` whole seconds (truncating `u64` division), not exactly `60/7`
seconds — the steady-state admitted rate is `60 / 8 = 7.5` requests per
minute, not 7 — and at `rate_limit = 61` the interval truncates to zero,
the builder's `finish()` yields no configuration, and the source's
`.unwrap()` panics: no bucket is configured at all. -/
theorem C7_counterexample :
    create_rate_limiter 7 2 = some (GovernorConfig.mk 8 2) ∧
    ¬((8 : ℚ) = 60 / (7 : ℚ)) ∧
    ¬(8 * 7 = 60) ∧
    create_rate_limiter 61 2 = none := by
  refine ⟨by decide, ?_, by decide, by decide⟩
  norm_num

/-- C7 (amended): for `1 ≤ rate_limit ≤ 60` and `burst_size ≥ 1`,
`create_rate_limiter` produces a configuration whose bucket capacity is
exactly `burst_size` and whose refill interval is `60 / rate_limit`
seconds rounded down (truncating `u64` division) — equal to exactly
`60 / rate_limit` seconds, so that `rate_limit` governs the steady-state
admitted requests per minute, precisely when `rate_limit` divides 60;
for `rate_limit > 60` (zero interval) or `burst_size = 0` the builder
produces no configuration and the source panics at startup. -/
theorem C7_rate_limiter_amended :
    ∀ (rate_limit burst_size : Nat), 1 ≤ rate_limit →
      (∀ cfg, create_rate_limiter rate_limit burst_size = some cfg →
        cfg.seconds_per_request = 60 / rate_limit ∧
        cfg.burst_size = burst_size ∧
        (rate_limit ∣ 60 → (cfg.seconds_per_request : ℚ) = 60 / (rate_limit : ℚ))) ∧
      (rate_limit ≤ 60 → 1 ≤ burst_size →
        create_rate_limiter rate_limit burst_size =
          some (GovernorConfig.mk (60 / rate_limit) burst_size)) ∧
      (60 < rate_limit ∨ burst_size = 0 →
        create_rate_limiter rate_limit burst_size = none) := by
  intro rate_limit burst_size h1
  refine ⟨?_, ?_, ?_⟩
  · intro cfg hcfg
    unfold create_rate_limiter at hcfg
    by_cases hz : 60 / rate_limit = 0 ∨ burst_size = 0
    · rw [if_pos hz] at hcfg
      exact absurd hcfg (by simp)
    · rw [if_neg hz] at hcfg
      obtain rfl : GovernorConfig.mk (60 / rate_limit) burst_size = cfg := by
        simpa using hcfg
      refine ⟨rfl, rfl, fun hd => ?_⟩
      have hmul : 60 / rate_limit * rate_limit = 60 := Nat.div_mul_cancel hd
      have hne : (rate_limit : ℚ) ≠ 0 := by
        have hnz : rate_limit ≠ 0 := by omega
        exact_mod_cast hnz
      rw [eq_div_iff hne]
      exact_mod_cast congrArg (fun n : Nat => (n : ℚ)) hmul
  · intro hle hb
    unfold create_rate_limiter
    have hpos : 1 ≤ 60 / rate_limit := (Nat.one_le_div_iff (by omega)).mpr hle
    rw [if_neg (by omega)]
  · intro hor
    unfold create_rate_limiter
    rcases hor with hgt | hb0
    · have hz : 60 / rate_limit = 0 := Nat.div_eq_of_lt hgt
      rw [if_pos (Or.inl hz)]
    · rw [if_pos (Or.inr hb0)]

/-- Witness for the amended C7 theorem at the configured example
`rate_limit = 10`, `burst_size = 2`, and at the panicking parameters
`rate_limit = 61`. -/
theorem C7_rate_limiter_amended_witness :
    create_rate_limiter 10 2 = some (GovernorConfig.mk (60 / 10) 2) ∧
    ((GovernorConfig.mk (60 / 10) 2).seconds_per_request : ℚ) = 60 / (10 : ℚ) ∧
    create_rate_limiter 61 2 = none := by
  have h := C7_rate_limiter_amended 10 2 (by norm_num)
  have hsome := h.2.1 (by norm_num) (by norm_num)
  have hq := (h.1 (GovernorConfig.mk (60 / 10) 2) hsome).2.2 (by norm_num)
  have h61 := (C7_rate_limiter_amended 61 2 (by norm_num)).2.2 (Or.inl (by norm_num))
  exact ⟨hsome, hq, h61⟩

end Cutl

namespace Cutl

lemma all_congr_mem {s : Str} {f g : Char → Bool} (h : ∀ c ∈ s, f c = g c) :
    s.all f = s.all g := by
  induction s with
  | nil => rfl
  | cons a t ih =>
    simp only [List.all_cons, h a (by simp)]
    rw [ih (fun c hc => h c (by simp [hc]))]

lemma isCodeChar_eq_cli (c : Char) (h : c.toNat < 0x80) :
    isCodeChar c = (rustIsAlphanumeric c || decide (c = '-') || decide (c = '_')) := by
  unfold isCodeChar rustIsAlphanumeric
  simp only [h, if_true]
  cases ha : c.isAlpha <;> cases hd : c.isDigit <;>
    cases he : decide (c = '-') <;> cases hf : decide (c = '_') <;> simp [ha, hd, he, hf]

/-- C10 counterexample: the single character `é` (U+00E9) is a Unicode
alphanumeric, so the CLI validator accepts it, while the server's regex
class `[a-zA-Z0-9_-]` is ASCII-only and rejects it. -/
theorem C10_counterexample :
    Cli.validate_code ("é".data) = true ∧ validate_code ("é".data) = false := by
  refine ⟨by decide, by decide⟩

/-- C10 (amended): on ASCII strings the server's regex-based
`validate_code` and the CLI's character-wise validator accept exactly the
same strings; outside ASCII they differ, the CLI accepting any Unicode
alphanumeric that the server's ASCII-only character class rejects. -/
theorem C10_validate_code_agree_ascii :
    ∀ s : Str, (∀ c ∈ s, c.toNat < 0x80) → validate_code s = Cli.validate_code s := by
  intro s h
  unfold validate_code Cli.validate_code
  by_cases he : s.isEmpty
  · simp [he]
  · simp only [he, Bool.false_eq_true, if_false]
    by_cases hb : byteLen s > 32
    · simp [hb]
    · simp only [hb, if_false]
      have hreg : code_regex_match s =
          s.all (fun c => rustIsAlphanumeric c || decide (c = '-') || decide (c = '_')) := by
        unfold code_regex_match
        have h1 : 1 ≤ s.length := by
          cases s
          · simp at he
          · simp
        have h2 : s.length ≤ 32 := le_trans (length_le_byteLen s) (by omega)
        rw [decide_eq_true h1, decide_eq_true h2]
        simp only [Bool.true_and]
        exact all_congr_mem (fun c hc => isCodeChar_eq_cli c (h c hc))
      rw [hreg]

end Cutl

namespace Cutl

/-- Witness for the amended C10 theorem at an ASCII code. -/
theorem C10_validate_code_agree_ascii_witness :
    validate_code ("abc-DEF_123".data) = Cli.validate_code ("abc-DEF_123".data) :=
  C10_validate_code_agree_ascii ("abc-DEF_123".data) (by decide)

lemma generate_unique_code_loop_exhaust (links : LinksTable) (gen : Nat → Str) :
    ∀ fuel start, (∀ k, k < fuel → code_exists links (gen (start + k)) = true) →
      generate_unique_code_loop links gen fuel start = .error .internal := by
  intro fuel
  induction fuel with
  | zero => intro start h; rfl
  | succ n ih =>
    intro start h
    have h0 : code_exists links (gen start) = true := by
      have := h 0 (by omega)
      simpa using this
    simp only [generate_unique_code_loop, h0, if_true]
    exact ih (start + 1) (fun k hk => by
      have heq : start + 1 + k = start + (k + 1) := by omega
      rw [heq]
      exact h (k + 1) (by omega))

lemma generate_unique_code_loop_first (links : LinksTable) (gen : Nat → Str) :
    ∀ fuel start j, j < fuel →
      code_exists links (gen (start + j)) = false →
      (∀ k, k < j → code_exists links (gen (start + k)) = true) →
      generate_unique_code_loop links gen fuel start = .ok (gen (start + j)) := by
  intro fuel
  induction fuel with
  | zero => intro start j hj; omega
  | succ n ih =>
    intro start j hj hfree hbusy
    cases j with
    | zero =>
      have h0 : code_exists links (gen start) = false := by simpa using hfree
      simp [generate_unique_code_loop, h0]
    | succ m =>
      have h0 : code_exists links (gen start) = true := by
        have := hbusy 0 (by omega)
        simpa using this
      simp only [generate_unique_code_loop, h0, if_true]
      have heq : start + (m + 1) = start + 1 + m := by omega
      rw [heq]
      exact ih (start + 1) m (by omega)
        (by rw [← heq]; exact hfree)
        (fun k hk => by
          have heq2 : start + 1 + k = start + (k + 1) := by omega
          rw [heq2]
          exact hbusy (k + 1) (by omega))

/-- C6: code resolution without a custom code draws up to `MAX_ATTEMPTS`
(10) candidates from the generator, checks each for existence, returns the
first one absent from the store, and reports an internal error when all 10
candidates collide. -/
theorem C6_generate_unique_code_bounded :
    ∀ (links : LinksTable) (gen : Nat → Str),
      ((∀ i, i < MAX_ATTEMPTS → code_exists links (gen i) = true) →
        generate_unique_code links gen = .error .internal) ∧
      (∀ j, j < MAX_ATTEMPTS → code_exists links (gen j) = false →
        (∀ i, i < j → code_exists links (gen i) = true) →
        generate_unique_code links gen = .ok (gen j)) := by
  intro links gen
  constructor
  · intro h
    exact generate_unique_code_loop_exhaust links gen MAX_ATTEMPTS 0
      (fun k hk => by simpa using h k hk)
  · intro j hj hfree hbusy
    have := generate_unique_code_loop_first links gen MAX_ATTEMPTS 0 j hj
      (by simpa using hfree) (fun k hk => by simpa using hbusy k hk)
    simpa using this

/-- Witness for C6: a free first candidate is returned, and a store
already holding the only candidate the oracle produces exhausts all 10
attempts. -/
theorem C6_generate_unique_code_bounded_witness :
    generate_unique_code [] (fun _ => "abc123".data) = .ok ("abc123".data) ∧
    generate_unique_code [Link.mk ("abc123".data) ("https://example.com".data) 100 50]
      (fun _ => "abc123".data) = .error .internal := by
  constructor
  · exact (C6_generate_unique_code_bounded [] (fun _ => "abc123".data)).2 0 (by decide)
      (by decide) (fun i hi => absurd hi (Nat.not_lt_zero i))
  · exact (C6_generate_unique_code_bounded
      [Link.mk ("abc123".data) ("https://example.com".data) 100 50]
      (fun _ => "abc123".data)).1 (fun i _ => by decide)

end Cutl

namespace Cutl

lemma filter_length_split {α : Type} (p : α → Bool) (l : List α) :
    (l.filter p).length + (l.filter (fun a => !p a)).length = l.length := by
  induction l with
  | nil => rfl
  | cons a t ih =>
    by_cases h : p a <;> simp [List.filter_cons, h, ← ih] <;> omega

/-- C8: a sweep at time `now` removes exactly the rows with
`expires_at < now` (every other row survives unchanged, in order), reports
that number of deleted rows, and a second sweep at any time at which no
kept row has expired deletes zero rows. -/
theorem C8_sweep_exact_and_idempotent :
    ∀ (links : LinksTable) (now : Int),
      (delete_expired_links links now).1 =
        links.filter (fun l => !(decide (l.expires_at < now))) ∧
      (∀ l, l ∈ (delete_expired_links links now).1 ↔ l ∈ links ∧ ¬(l.expires_at < now)) ∧
      (delete_expired_links links now).2 =
        (links.filter (fun l => decide (l.expires_at < now))).length ∧
      (∀ now2, (∀ l ∈ (delete_expired_links links now).1, ¬(l.expires_at < now2)) →
        delete_expired_links (delete_expired_links links now).1 now2 =
          ((delete_expired_links links now).1, 0)) := by
  intro links now
  refine ⟨rfl, ?_, ?_, ?_⟩
  · intro l
    simp [delete_expired_links, List.mem_filter]
  · have hsplit := filter_length_split (fun l : Link => decide (l.expires_at < now)) links
    simp only [delete_expired_links]
    omega
  · intro now2 h
    have hall : (delete_expired_links links now).1.filter
        (fun l => !(decide (l.expires_at < now2))) = (delete_expired_links links now).1 := by
      rw [List.filter_eq_self]
      intro a ha
      simp [h a ha]
    simp only [delete_expired_links] at hall ⊢
    rw [hall]
    simp

/-- Witness for C8: sweeping a two-row store at `now = 50` keeps the live
row, and a second sweep at `now = 60` deletes zero rows. -/
theorem C8_sweep_exact_and_idempotent_witness :
    delete_expired_links
      ((delete_expired_links
        [Link.mk ("a1".data) ("https://a.com".data) 10 0,
         Link.mk ("b2".data) ("https://b.com".data) 100 0] 50).1) 60 =
      ((delete_expired_links
        [Link.mk ("a1".data) ("https://a.com".data) 10 0,
         Link.mk ("b2".data) ("https://b.com".data) 100 0] 50).1, 0) := by
  exact (C8_sweep_exact_and_idempotent
    [Link.mk ("a1".data) ("https://a.com".data) 10 0,
     Link.mk ("b2".data) ("https://b.com".data) 100 0] 50).2.2.2 60 (by decide)

/-- C9: during Resolve of a live Link the best-effort visit write never
influences the response: the handler's result (and the links table) is the
same whether `insert_visit` succeeds or fails, and no visit-write error
kind ever appears in the result. -/
theorem C9_visit_failure_swallowed :
    ∀ (db : Db) (code : Str) (now : Int) (vinfo : VisitInfo),
      (redirect db code now vinfo true).1 = (redirect db code now vinfo false).1 ∧
      (redirect db code now vinfo true).2.links = (redirect db code now vinfo false).2.links := by
  intro db code now vinfo
  unfold redirect
  by_cases h1 : (code.isEmpty || decide (byteLen code > 32)) = true
  · simp [h1]
  · simp only [h1, Bool.false_eq_true, if_false]
    cases hg : get_link db.links code with
    | none => simp
    | some link =>
      by_cases h2 : decide (now > link.expires_at) = true
      · simp [h2]
      · simp only [h2, Bool.false_eq_true, if_false]
        simp

end Cutl

namespace Cutl

lemma get_link_eq_some {links : LinksTable} {c : Str} {l : Link}
    (h : get_link links c = some l) : l ∈ links ∧ l.code = c := by
  unfold get_link at h
  refine ⟨List.mem_of_find?_eq_some h, ?_⟩
  have := List.find?_some h
  simpa using this

lemma get_link_none_of_bad_code {links : LinksTable} {c : Str}
    (hwf : StoredCodesWf links) (hbad : c = [] ∨ byteLen c > 32) :
    get_link links c = none := by
  unfold get_link
  rw [List.find?_eq_none]
  intro l hl
  have hw := hwf l hl
  simp only [beq_iff_eq]
  intro hc
  rcases hbad with hb | hb
  · exact hw.1 (hc.trans hb)
  · rw [hc] at hw
    omega

/-- C2: Resolve and Summarize report `NotFound` exactly when the stored
Link is absent or strictly expired (`now > expires_at`), even before any
sweep; at `now = expires_at` the Link is still live and both succeed.
The store is assumed to satisfy the creation-time invariant that every
stored code is nonempty and at most 32 bytes. -/
theorem C2_notfound_iff_absent_or_expired :
    ∀ (db : Db) (code : Str) (now : Int) (vinfo : VisitInfo) (w : Bool),
      StoredCodesWf db.links →
      (((redirect db code now vinfo w).1 = .error .notFound) ↔
        absentOrExpired db.links code now = true) ∧
      ((analytics db true code now = .error .notFound) ↔
        absentOrExpired db.links code now = true) ∧
      (∀ l, get_link db.links code = some l → now ≤ l.expires_at →
        (redirect db code now vinfo w).1 = .ok l.original_url ∧
        ∃ r, analytics db true code now = .ok r) := by
  intro db code now vinfo w hwf
  refine ⟨?_, ?_, ?_⟩
  · unfold redirect
    by_cases h1 : (code.isEmpty || decide (byteLen code > 32)) = true
    · have hbad : code = [] ∨ byteLen code > 32 := by
        rcases Bool.or_eq_true_iff.mp h1 with hb | hb
        · exact Or.inl (by simpa using hb)
        · exact Or.inr (by simpa using hb)
      have hnone := get_link_none_of_bad_code hwf hbad
      simp [h1, absentOrExpired, hnone]
    · simp only [h1, Bool.false_eq_true, if_false]
      cases hg : get_link db.links code with
      | none => simp [absentOrExpired, hg]
      | some link =>
        by_cases h2 : decide (now > link.expires_at) = true
        · simp [h2, absentOrExpired, hg]
        · simp [h2, absentOrExpired, hg]
  · unfold analytics
    simp only [Bool.not_true, Bool.false_eq_true, if_false]
    cases hg : get_link db.links code with
    | none => simp [absentOrExpired, hg]
    | some link =>
      by_cases h2 : decide (now > link.expires_at) = true
      · simp [h2, absentOrExpired, hg]
      · simp [h2, absentOrExpired, hg]
  · intro l hl hlive
    obtain ⟨hmem, hcode⟩ := get_link_eq_some hl
    have hw := hwf l hmem
    have h1 : (code.isEmpty || decide (byteLen code > 32)) = false := by
      rw [← hcode]
      simp only [Bool.or_eq_false_iff]
      constructor
      · cases hc : l.code with
        | nil => exact absurd hc hw.1
        | cons a t => rfl
      · simp only [decide_eq_false_iff_not]
        omega
    have h2 : decide (now > l.expires_at) = false := by
      simp only [decide_eq_false_iff_not]
      omega
    constructor
    · unfold redirect
      simp [h1, hl, h2]
    · unfold analytics
      simp [hl, h2]

end Cutl

namespace Cutl

/-- Witness for C2: a Link at exactly `now = expires_at` is still resolved
and summarized successfully. -/
theorem C2_notfound_iff_witness :
    (redirect (Db.mk [Link.mk ("abc".data) ("https://example.com".data) 100 50] [])
        ("abc".data) 100 (VisitInfo.mk none none none none none) true).1 =
      .ok ("https://example.com".data) ∧
    (∃ r, analytics (Db.mk [Link.mk ("abc".data) ("https://example.com".data) 100 50] [])
        true ("abc".data) 100 = .ok r) := by
  have hwf : StoredCodesWf [Link.mk ("abc".data) ("https://example.com".data) 100 50] := by
    intro l hl
    simp only [List.mem_singleton] at hl
    subst hl
    exact ⟨by decide, by decide⟩
  exact (C2_notfound_iff_absent_or_expired
      (Db.mk [Link.mk ("abc".data) ("https://example.com".data) 100 50] [])
      ("abc".data) 100 (VisitInfo.mk none none none none none) true hwf).2.2
    (Link.mk ("abc".data) ("https://example.com".data) 100 50) (by decide) (by decide)


end Cutl

namespace Cutl

/-- C5: creation with a custom code that already exists in the store
returns `Conflict` and returns the store unchanged — no row is created and
the existing Link's `original_url` is untouched — whenever the other
request inputs are themselves valid (URL valid, TTL absent or parsable,
custom code well-formed), which the handler checks first. -/
theorem C5_custom_code_conflict :
    ∀ (db : Db) (base url c : Str) (ttl : Option Str) (gen : Nat → Str) (now : Int),
      validate_url url = true →
      (∀ t, ttl = some t → ∃ v, parse_ttl t = .ok v) →
      validate_code c = true →
      code_exists db.links c = true →
      shorten db true base (CreateRequest.mk url (some c) ttl) gen now =
        (.err .conflict, db) := by
  intro db base url c ttl gen now hurl httl hcode hexists
  unfold shorten
  simp only [Bool.not_true, Bool.false_eq_true, if_false, hurl, Bool.not_false, if_true]
  cases ttl with
  | none => simp [hcode, hexists]
  | some t =>
    obtain ⟨v, hv⟩ := httl t rfl
    simp [hv, hcode, hexists]

/-- Witness for C5 at a one-row store whose code the request repeats. -/
theorem C5_custom_code_conflict_witness :
    shorten (Db.mk [Link.mk ("abc".data) ("https://a.com".data) 100 50] [])
      true ("https://cutl.my.id".data)
      (CreateRequest.mk ("https://example.com".data) (some ("abc".data)) (some ("1h".data)))
      (fun _ => "zzzzzz".data) 60 =
    (.err .conflict, Db.mk [Link.mk ("abc".data) ("https://a.com".data) 100 50] []) := by
  exact C5_custom_code_conflict
    (Db.mk [Link.mk ("abc".data) ("https://a.com".data) 100 50] [])
    ("https://cutl.my.id".data) ("https://example.com".data) ("abc".data)
    (some ("1h".data)) (fun _ => "zzzzzz".data) 60
    (by decide) (fun t ht => by cases ht; exact ⟨3600, by decide⟩) (by decide) (by decide)

lemma generate_unique_code_loop_ok {links : LinksTable} {gen : Nat → Str} :
    ∀ fuel start c, generate_unique_code_loop links gen fuel start = .ok c →
      (∃ i, c = gen i) ∧ code_exists links c = false := by
  intro fuel
  induction fuel with
  | zero => intro start c h; exact absurd h (by simp [generate_unique_code_loop])
  | succ n ih =>
    intro start c h
    by_cases he : code_exists links (gen start) = true
    · simp only [generate_unique_code_loop, he, if_true] at h
      exact ih (start + 1) c h
    · simp only [generate_unique_code_loop, he, if_false] at h
      obtain rfl : gen start = c := by simpa using h
      exact ⟨⟨start, rfl⟩, by simpa using he⟩

lemma generate_unique_code_ok {links : LinksTable} {gen : Nat → Str} {c : Str}
    (h : generate_unique_code links gen = .ok c) :
    (∃ i, c = gen i) ∧ code_exists links c = false :=
  generate_unique_code_loop_ok MAX_ATTEMPTS 0 c h

lemma utf8Len_base62 {c : Char} (h : isBase62 c = true) : utf8Len c = 1 := by
  unfold isBase62 at h
  simp only [Bool.or_eq_true, Bool.and_eq_true, decide_eq_true_eq] at h
  unfold utf8Len
  have : c.toNat ≤ 0x7F := by omega
  simp [this]

lemma byteLen_base62 {s : Str} (h : s.all isBase62 = true) : byteLen s = s.length := by
  induction s with
  | nil => rfl
  | cons a t ih =>
    simp only [List.all_cons, Bool.and_eq_true] at h
    have h1 : byteLen (a :: t) = utf8Len a + byteLen t := by simp [byteLen]
    rw [h1, utf8Len_base62 h.1, ih h.2]
    simp only [List.length_cons]
    omega

lemma get_link_append_of_not_exists {links : LinksTable} {c : Str} {l : Link}
    (h : code_exists links c = false) :
    get_link (links ++ [l]) c = if l.code == c then some l else none := by
  unfold get_link
  induction links with
  | nil => cases hlc : l.code == c <;> simp [List.find?, hlc]
  | cons a t ih =>
    simp only [code_exists, List.any_cons, Bool.or_eq_false_iff] at h
    simp only [List.cons_append, List.find?_cons, h.1]
    exact ih (by simp [code_exists, h.2])

/-- C1: a successful Create with a valid URL, no custom code and a valid
TTL stores a Link with `created_at = now` and `expires_at = now + ttl`
under the generated code, and Resolve of that code returns the original
URL at every instant from `created_at` through `expires_at` inclusive. -/
theorem C1_create_then_resolve :
    ∀ (db : Db) (base url ttlSpec : Str) (gen : Nat → Str) (now now2 : Int)
      (resp : ShortenResponse) (db2 : Db) (vinfo : VisitInfo) (w : Bool),
      (∀ i, GeneratedCodeShape (gen i)) →
      validate_url url = true →
      (∃ v, parse_ttl ttlSpec = .ok v) →
      shorten db true base (CreateRequest.mk url none (some ttlSpec)) gen now =
        (.ok resp, db2) →
      now ≤ now2 → now2 ≤ resp.expires_at →
      get_link db2.links resp.code = some (Link.mk resp.code url resp.expires_at now) ∧
      (redirect db2 resp.code now2 vinfo w).1 = .ok url := by
  intro db base url ttlSpec gen now now2 resp db2 vinfo w hgen hurl httl hshort hlo hhi
  obtain ⟨v, hv⟩ := httl
  unfold shorten at hshort
  simp only [hurl, Bool.not_true, Bool.false_eq_true, if_false, Bool.not_false, if_true,
    hv] at hshort
  rcases hgc : generate_unique_code db.links gen with e | c
  · rw [hgc] at hshort
    simp at hshort
  · rw [hgc] at hshort
    simp only [Prod.mk.injEq, HandlerResult.ok.injEq] at hshort
    obtain ⟨hresp, hdb2⟩ := hshort
    obtain ⟨⟨i, hci⟩, hnotex⟩ := generate_unique_code_ok hgc
    have hshape : GeneratedCodeShape c := hci ▸ hgen i
    obtain ⟨hlen6, hlen8, hb62⟩ := hshape
    have hbyte : byteLen c = c.length := byteLen_base62 hb62
    have hglink : get_link db2.links c = some (Link.mk c url (now + v) now) := by
      rw [← hdb2]
      simp only [insert_link]
      rw [get_link_append_of_not_exists hnotex]
      simp
    have hcode : resp.code = c := by rw [← hresp]
    have hexp : resp.expires_at = now + v := by rw [← hresp]
    refine ⟨?_, ?_⟩
    · rw [hcode, hexp]
      exact hglink
    · rw [hcode]
      unfold redirect
      have h1 : (c.isEmpty || decide (byteLen c > 32)) = false := by
        simp only [Bool.or_eq_false_iff]
        constructor
        · cases hc : c with
          | nil => rw [hc] at hlen6; simp at hlen6
          | cons a t => rfl
        · simp only [decide_eq_false_iff_not]
          omega
      simp only [h1, Bool.false_eq_true, if_false, hglink]
      have h2 : decide (now2 > (Link.mk c url (now + v) now).expires_at) = false := by
        simp only [decide_eq_false_iff_not]
        rw [hexp] at hhi
        simp
        omega
      simp [h2]

/-- Witness for C1: a concrete Create at `now = 1000000000` with TTL `1h`
resolved at the expiry instant itself. -/
theorem C1_create_then_resolve_witness :
    get_link ((shorten (Db.mk [] []) true ("https://cutl.my.id".data)
        (CreateRequest.mk ("https://example.com".data) none (some ("1h".data)))
        (fun _ => "abc123".data) 1000000000).2).links ("abc123".data) =
      some (Link.mk ("abc123".data) ("https://example.com".data) 1000003600 1000000000) ∧
    (redirect ((shorten (Db.mk [] []) true ("https://cutl.my.id".data)
        (CreateRequest.mk ("https://example.com".data) none (some ("1h".data)))
        (fun _ => "abc123".data) 1000000000).2) ("abc123".data) 1000003600
        (VisitInfo.mk none none none none none) true).1 =
      .ok ("https://example.com".data) := by
  have hg : ∀ i : Nat, GeneratedCodeShape ((fun _ : Nat => ("abc123".data : Str)) i) := by
    intro i
    show GeneratedCodeShape ("abc123".data)
    exact ⟨by decide, by decide, by decide⟩
  have h := C1_create_then_resolve (Db.mk [] []) ("https://cutl.my.id".data)
    ("https://example.com".data) ("1h".data) (fun _ => "abc123".data)
    1000000000 1000003600
    (ShortenResponse.mk ("abc123".data) ("https://cutl.my.id/abc123".data) 1000003600)
    ((shorten (Db.mk [] []) true ("https://cutl.my.id".data)
      (CreateRequest.mk ("https://example.com".data) none (some ("1h".data)))
      (fun _ => "abc123".data) 1000000000).2)
    (VisitInfo.mk none none none none none) true
    hg (by decide) ⟨3600, by decide⟩ (by decide) (by decide) (by decide)
  exact h

end Cutl
